import Mathlib

/-!
Verification of the local-first core of scratch-my-twitch: profile domain
logic (`src/types/ProfileUtils.ts`), the profile and category repositories,
and the Twitch OAuth client (`src/lib/auth/twitchAuth.ts`), shallowly
embedded in Lean.  JS strings are modelled as Lean `String` over their
character lists (ASCII inputs), timestamps (`Date.getTime()` values) as
`Int` milliseconds since the Unix epoch, and the IndexedDB-backed stores as
explicit values threaded through the repository operations.
-/

namespace ScratchMyTwitch

/-! ## JS string primitives -/

/-- Whitespace characters recognised by `String.prototype.trim` that occur in
this domain's ASCII inputs. -/
def isJsWhitespace (c : Char) : Bool :=
  c = ' ' || c = '\t' || c = '\n' || c = '\r' || c = '\x0b' || c = '\x0c'

/-- Drop leading then trailing whitespace from a character list
(`String.prototype.trim`). -/
def trimChars (l : List Char) : List Char :=
  ((l.dropWhile isJsWhitespace).reverse.dropWhile isJsWhitespace).reverse

/-- `s.trim()`. -/
def jsTrim (s : String) : String :=
  ⟨trimChars s.data⟩

/-- The ASCII case table: each uppercase letter paired with its lowercase
form.  `String.prototype.toLowerCase` acts exactly like this on the ASCII
range and is the identity on the rest of this domain's inputs. -/
def asciiCaseTable : List (Char × Char) :=
  [('A', 'a'), ('B', 'b'), ('C', 'c'), ('D', 'd'), ('E', 'e'), ('F', 'f'),
   ('G', 'g'), ('H', 'h'), ('I', 'i'), ('J', 'j'), ('K', 'k'), ('L', 'l'),
   ('M', 'm'), ('N', 'n'), ('O', 'o'), ('P', 'p'), ('Q', 'q'), ('R', 'r'),
   ('S', 's'), ('T', 't'), ('U', 'u'), ('V', 'v'), ('W', 'w'), ('X', 'x'),
   ('Y', 'y'), ('Z', 'z')]

/-- Lowercase a single character via the ASCII case table. -/
def jsCharToLower (c : Char) : Char :=
  match asciiCaseTable.find? (fun pr => pr.1 = c) with
  | some pr => pr.2
  | none => c

/-- `s.toLowerCase()`. -/
def jsToLower (s : String) : String :=
  ⟨s.data.map jsCharToLower⟩

/-- Does `pat` occur as a contiguous run inside `l`? -/
def isInfixChars (pat : List Char) : List Char → Bool
  | [] => pat.isEmpty
  | c :: rest => pat.isPrefixOf (c :: rest) || isInfixChars pat rest

/-- `s.includes(pat)`: substring containment. -/
def jsIncludes (s pat : String) : Bool :=
  isInfixChars pat.data s.data

/-- Replace every occurrence of a non-empty literal pattern, scanning left to
right without overlap; `fuel` bounds the recursion by the input length. -/
def replaceAllAux (pat rep : List Char) : Nat → List Char → List Char
  | _, [] => []
  | 0, l => l
  | fuel + 1, c :: rest =>
    if pat.isPrefixOf (c :: rest) then
      rep ++ replaceAllAux pat rep fuel (rest.drop (pat.length - 1))
    else
      c :: replaceAllAux pat rep fuel rest

/-- `s.replace(new RegExp(escapeRegExp(pat), 'g'), rep)` for a non-empty
literal pattern `pat` and a replacement free of `$`-sequences: global
literal replacement. -/
def jsReplaceAll (s pat rep : String) : String :=
  if pat.data.isEmpty then s
  else ⟨replaceAllAux pat.data rep.data s.data.length s.data⟩

/-! ## Facts about the string primitives -/

theorem asciiCaseTable_not_whitespace :
    ∀ pr ∈ asciiCaseTable,
      isJsWhitespace pr.1 = false ∧ isJsWhitespace pr.2 = false := by
  decide

theorem isJsWhitespace_jsCharToLower (c : Char) :
    isJsWhitespace (jsCharToLower c) = isJsWhitespace c := by
  unfold jsCharToLower
  cases h : asciiCaseTable.find? (fun pr => pr.1 = c) with
  | none => rfl
  | some pr =>
    have hmem : pr ∈ asciiCaseTable := List.mem_of_find?_eq_some h
    have hp := List.find?_some h
    have hc : pr.1 = c := by simpa using hp
    have hws := asciiCaseTable_not_whitespace pr hmem
    rw [hws.2, ← hc, hws.1]

theorem head_dropWhile_false (p : Char → Bool) :
    ∀ (m : List Char) {c : Char} {t : List Char},
      m.dropWhile p = c :: t → p c = false := by
  intro m
  induction m with
  | nil => intro c t h; simp [List.dropWhile] at h
  | cons a rest ih =>
    intro c t h
    by_cases ha : p a = true
    · rw [List.dropWhile_cons_of_pos ha] at h
      exact ih h
    · rw [List.dropWhile_cons_of_neg ha] at h
      cases h
      simpa using ha

theorem dropWhile_idem (p : Char → Bool) (m : List Char) :
    (m.dropWhile p).dropWhile p = m.dropWhile p := by
  cases h : m.dropWhile p with
  | nil => simp
  | cons c t =>
    have hc := head_dropWhile_false p m h
    rw [List.dropWhile_cons_of_neg (by simp [hc])]

theorem trimChars_no_leading (l : List Char) {c : Char} {t : List Char}
    (h : trimChars l = c :: t) : isJsWhitespace c = false := by
  unfold trimChars at h
  obtain ⟨u, hu⟩ : (l.dropWhile isJsWhitespace).reverse.dropWhile isJsWhitespace
      <:+ (l.dropWhile isJsWhitespace).reverse := List.dropWhile_suffix _
  have hr : (l.dropWhile isJsWhitespace).reverse.dropWhile isJsWhitespace
      = t.reverse ++ [c] := by
    have h' := congrArg List.reverse h
    rwa [List.reverse_reverse, List.reverse_cons] at h'
  have hlast : (l.dropWhile isJsWhitespace).reverse.getLast? = some c := by
    rw [← hu, hr, ← List.append_assoc]
    simp
  have hhead : (l.dropWhile isJsWhitespace).head? = some c := by
    rwa [List.getLast?_reverse] at hlast
  cases hq : l.dropWhile isJsWhitespace with
  | nil => rw [hq] at hhead; simp at hhead
  | cons c0 t0 =>
    rw [hq] at hhead
    simp at hhead
    rw [← hhead]
    exact head_dropWhile_false isJsWhitespace l hq

theorem trimChars_idem (l : List Char) : trimChars (trimChars l) = trimChars l := by
  have h1 : (trimChars l).dropWhile isJsWhitespace = trimChars l := by
    cases h : trimChars l with
    | nil => simp
    | cons c t =>
      exact List.dropWhile_cons_of_neg (by simp [trimChars_no_leading l h])
  have h2 : (trimChars l).reverse.dropWhile isJsWhitespace = (trimChars l).reverse := by
    have hrev : (trimChars l).reverse
        = (l.dropWhile isJsWhitespace).reverse.dropWhile isJsWhitespace := by
      unfold trimChars
      rw [List.reverse_reverse]
    rw [hrev, dropWhile_idem]
  show (((trimChars l).dropWhile isJsWhitespace).reverse.dropWhile isJsWhitespace).reverse
      = trimChars l
  rw [h1, h2, List.reverse_reverse]

theorem trimChars_map_lower (l : List Char) :
    trimChars (l.map jsCharToLower) = (trimChars l).map jsCharToLower := by
  unfold trimChars
  have hws : ∀ (m : List Char),
      (m.map jsCharToLower).dropWhile isJsWhitespace
        = (m.dropWhile isJsWhitespace).map jsCharToLower := by
    intro m
    induction m with
    | nil => rfl
    | cons a rest ih =>
      by_cases ha : isJsWhitespace a = true
      · have ha' : isJsWhitespace (jsCharToLower a) = true := by
          rw [isJsWhitespace_jsCharToLower]; exact ha
        simp only [List.map_cons, List.dropWhile_cons_of_pos ha,
          List.dropWhile_cons_of_pos ha', ih]
      · have ha' : isJsWhitespace (jsCharToLower a) = false := by
          rw [isJsWhitespace_jsCharToLower]; simpa using ha
        simp only [List.map_cons, List.dropWhile_cons_of_neg (by simp [ha] : ¬ isJsWhitespace a = true),
          List.dropWhile_cons_of_neg (by simp [ha'] : ¬ isJsWhitespace (jsCharToLower a) = true)]
  rw [hws, ← List.map_reverse, hws, List.map_reverse]

/-- Normalisation used for profile-name uniqueness checks:
`name.toLowerCase().trim()`. -/
def normalizeName (s : String) : String :=
  jsTrim (jsToLower s)

theorem normalizeName_jsTrim (s : String) :
    normalizeName (jsTrim s) = normalizeName s := by
  unfold normalizeName jsTrim jsToLower
  apply congrArg String.mk
  show trimChars ((trimChars s.data).map jsCharToLower) = trimChars (s.data.map jsCharToLower)
  rw [← trimChars_map_lower, trimChars_idem]

/-! ## Wall-clock model

`Date` values are modelled by their `getTime()` value: `Int` milliseconds
since the Unix epoch.  The title processor formats dates in UTC (the
source's `toISOString` is UTC; its `toLocaleDateString` weekday uses the
host locale, modelled here as UTC as well). -/

/-- Milliseconds in a day. -/
def msPerDay : Int := 86400000

/-- Whole days since 1970-01-01 of a timestamp (floor division). -/
def epochDay (ms : Int) : Int := Int.fdiv ms msPerDay

/-- Civil calendar date `(year, month, day)` from a day count since
1970-01-01 (standard era-based conversion, proleptic Gregorian). -/
def civilFromDays (z0 : Int) : Int × Int × Int :=
  let z := z0 + 719468
  let era := Int.fdiv z 146097
  let doe := z - era * 146097
  let yoe := Int.fdiv (doe - Int.fdiv doe 1460 + Int.fdiv doe 36524 - Int.fdiv doe 146096) 365
  let y := yoe + era * 400
  let doy := doe - (365 * yoe + Int.fdiv yoe 4 - Int.fdiv yoe 100)
  let mp := Int.fdiv (5 * doy + 2) 153
  let d := doy - Int.fdiv (153 * mp + 2) 5 + 1
  let m := mp + (if mp < 10 then 3 else -9)
  (y + (if m ≤ 2 then 1 else 0), m, d)

/-- Zero-pad a calendar component to two digits. -/
def pad2 (n : Int) : String :=
  if n < 10 then "0" ++ toString n else toString n

/-- The `YYYY-MM-DD` part of `new Date(ms).toISOString()`. -/
def isoDateString (ms : Int) : String :=
  let ymd := civilFromDays (epochDay ms)
  toString ymd.1 ++ "-" ++ pad2 ymd.2.1 ++ "-" ++ pad2 ymd.2.2

/-- Full English weekday names indexed Sunday..Saturday, as produced by
`toLocaleDateString('en-US', { weekday: 'long' })`. -/
def weekdayNames : List String :=
  ["Sunday", "Monday", "Tuesday", "Wednesday", "Thursday", "Friday", "Saturday"]

/-- Weekday of a timestamp (1970-01-01 was a Thursday). -/
def weekdayName (ms : Int) : String :=
  weekdayNames.getD (Int.emod (epochDay ms + 4) 7).toNat "Sunday"

/-! ## Profile domain logic (`src/types/ProfileUtils.ts`) -/

/-- `TITLE_TEMPLATES.DATE`. -/
def TITLE_TEMPLATES.DATE : String := "{YYYY-MM-DD}"

/-- `TITLE_TEMPLATES.DAY`. -/
def TITLE_TEMPLATES.DAY : String := "{DAY}"

/-- Result of `processTitle`. -/
structure ProcessedTitle where
  template : String
  processed : String
  replacements : List (String × String)
  deriving DecidableEq, Repr

/-- `processTitle(template)`: replace the `{YYYY-MM-DD}` placeholder with
the current ISO calendar date and `{DAY}` with the full English weekday
name, both computed from `now` at call time; the wall clock is passed
explicitly since the source reads `new Date()` internally. -/
def processTitle (now : Int) (template : String) : ProcessedTitle :=
  let step1 : String × List (String × String) :=
    if jsIncludes template TITLE_TEMPLATES.DATE then
      let dateStr := isoDateString now
      (jsReplaceAll template TITLE_TEMPLATES.DATE dateStr,
       [(TITLE_TEMPLATES.DATE, dateStr)])
    else
      (template, [])
  let step2 : String × List (String × String) :=
    if jsIncludes step1.1 TITLE_TEMPLATES.DAY then
      let dayStr := weekdayName now
      (jsReplaceAll step1.1 TITLE_TEMPLATES.DAY dayStr,
       step1.2 ++ [(TITLE_TEMPLATES.DAY, dayStr)])
    else
      (step1.1, step1.2)
  { template := template, processed := step2.1, replacements := step2.2 }

/-- A Twitch category snapshot (`StreamCategory`). -/
structure StreamCategory where
  id : String
  name : String
  boxArtUrl : Option String := none
  deriving DecidableEq, Repr

/-- A stored stream profile (`StreamProfile`); timestamps are `getTime()`
values. -/
structure StreamProfile where
  id : String
  name : String
  description : Option String := none
  category : StreamCategory
  title : String
  tags : List String
  createdAt : Int
  updatedAt : Int
  deriving DecidableEq, Repr

/-- Input to profile creation (`CreateProfileInput`).  The `category` field
is required by the TypeScript type; the validator's runtime guard against a
missing category is modelled by its emptiness checks on `id`/`name`. -/
structure CreateProfileInput where
  name : String
  description : Option String := none
  category : StreamCategory
  title : String
  tags : List String
  deriving DecidableEq, Repr

/-- Partial update (`UpdateProfileInput`): `none` means the field is absent
from the update object. -/
structure UpdateProfileInput where
  name : Option String := none
  description : Option String := none
  category : Option StreamCategory := none
  title : Option String := none
  tags : Option (List String) := none
  deriving DecidableEq, Repr

/-- One collected validation violation (`ProfileValidationError`). -/
structure ProfileValidationError where
  field : String
  message : String
  code : String
  deriving DecidableEq, Repr

/-- Result of `validateProfile` (`ProfileValidationResult`). -/
structure ProfileValidationResult where
  isValid : Bool
  errors : List ProfileValidationError
  deriving DecidableEq, Repr

/-- Characters the tag regex `/^[a-zA-Z0-9\s\-_]+$/` accepts. -/
def isTagChar (c : Char) : Bool :=
  ('a' ≤ c && c ≤ 'z') || ('A' ≤ c && c ≤ 'Z') || ('0' ≤ c && c ≤ '9') ||
    isJsWhitespace c || c = '-' || c = '_'

/-- The tag regex: non-empty and every character allowed. -/
def tagCharsValid (tag : String) : Bool :=
  tag.length > 0 && tag.data.all isTagChar

/-- `validateProfile(input)`: collect every violation, in source order
(name, title, category, tag count, then per-tag checks). -/
def validateProfile (input : CreateProfileInput) : ProfileValidationResult :=
  let nameErrors : List ProfileValidationError :=
    if input.name = "" || (jsTrim input.name).length = 0 then
      [{ field := "name", message := "Profile name is required",
         code := "NAME_REQUIRED" }]
    else if (jsTrim input.name).length > 100 then
      [{ field := "name", message := "Profile name must be 100 characters or less",
         code := "NAME_TOO_LONG" }]
    else []
  let titleErrors : List ProfileValidationError :=
    if input.title = "" || (jsTrim input.title).length = 0 then
      [{ field := "title", message := "Stream title is required",
         code := "TITLE_REQUIRED" }]
    else if (jsTrim input.title).length > 140 then
      [{ field := "title", message := "Stream title must be 140 characters or less",
         code := "TITLE_TOO_LONG" }]
    else []
  let categoryErrors : List ProfileValidationError :=
    if input.category.id = "" || input.category.name = "" then
      [{ field := "category", message := "Stream category is required",
         code := "CATEGORY_REQUIRED" }]
    else []
  let tagCountErrors : List ProfileValidationError :=
    if input.tags.length > 10 then
      [{ field := "tags", message := "Maximum 10 tags allowed",
         code := "TAGS_TOO_MANY" }]
    else []
  let perTagErrors : List ProfileValidationError :=
    (input.tags.enum.map fun it =>
      (if it.2.length > 25 then
        [{ field := "tags", message := "Tag " ++ toString (it.1 + 1) ++ " must be 25 characters or less",
           code := "TAG_TOO_LONG" }]
      else []) ++
      (if tagCharsValid it.2 then []
       else
        [{ field := "tags", message := "Tag \"" ++ it.2 ++ "\" contains invalid characters",
           code := "TAG_INVALID_CHARS" }])).flatten
  let errors := nameErrors ++ titleErrors ++ categoryErrors ++ tagCountErrors ++ perTagErrors
  { isValid := errors.isEmpty, errors := errors }

/-- `createProfile(input)`: trim textual fields, drop tags that are empty
after trimming, stamp both timestamps with `now`.  The generated UUID is
passed in as `genId` (the source draws it from `Math.random()`). -/
def createProfile (genId : String) (now : Int) (input : CreateProfileInput) :
    StreamProfile :=
  { id := genId
    name := jsTrim input.name
    description := input.description.map jsTrim
    category := input.category
    title := jsTrim input.title
    tags := (input.tags.map jsTrim).filter (fun t => t.length > 0)
    createdAt := now
    updatedAt := now }

/-- `updateProfile(existing, updates)`: spread the present update fields
over the existing record and refresh `updatedAt`. -/
def updateProfile (existing : StreamProfile) (updates : UpdateProfileInput)
    (now : Int) : StreamProfile :=
  { existing with
    name := updates.name.getD existing.name
    description := match updates.description with
                   | some d => some d
                   | none => existing.description
    category := updates.category.getD existing.category
    title := updates.title.getD existing.title
    tags := updates.tags.getD existing.tags
    updatedAt := now }

/-- `searchProfiles(profiles, query)`: an empty (or whitespace-only) query
returns all profiles; otherwise case-insensitive substring match over name,
description, category name and tags. -/
def searchProfiles (profiles : List StreamProfile) (query : String) :
    List StreamProfile :=
  if jsTrim query = "" then profiles
  else
    let searchTerm := jsTrim (jsToLower query)
    profiles.filter fun p =>
      jsIncludes (jsToLower p.name) searchTerm ||
      (match p.description with
       | some d => jsIncludes (jsToLower d) searchTerm
       | none => false) ||
      jsIncludes (jsToLower p.category.name) searchTerm ||
      p.tags.any (fun t => jsIncludes (jsToLower t) searchTerm)

/-- Sort criteria of `sortProfiles`. -/
inductive SortBy where
  | name
  | category
  | createdAt
  | updatedAt
  deriving DecidableEq, Repr

/-- Sort direction of `sortProfiles`. -/
inductive SortDirection where
  | asc
  | desc
  deriving DecidableEq, Repr

/-- The comparator body of `sortProfiles` (`localeCompare` modelled as
lexicographic character-code comparison). -/
def profileComparison (sortBy : SortBy) (a b : StreamProfile) : Int :=
  match sortBy with
  | .name => if a.name < b.name then -1 else if b.name < a.name then 1 else 0
  | .category =>
      if a.category.name < b.category.name then -1
      else if b.category.name < a.category.name then 1 else 0
  | .createdAt => a.createdAt - b.createdAt
  | .updatedAt => a.updatedAt - b.updatedAt

/-- `sortProfiles(profiles, sortBy, direction)`: stable sort by the chosen
comparator (JS `Array.prototype.sort` is stable). -/
def sortProfiles (profiles : List StreamProfile) (sortBy : SortBy)
    (direction : SortDirection) : List StreamProfile :=
  profiles.mergeSort fun a b =>
    decide ((match direction with
             | .desc => -(profileComparison sortBy a b)
             | .asc => profileComparison sortBy a b) ≤ 0)

/-! ## Profile repository (`src/repositories/ProfileRepository.ts`)

The `profiles` object store is modelled as a list of records keyed by `id`;
each operation returns a `RepositoryResult` and the resulting store.  The
storage engine itself never fails in this model (its error re-wrapping
branches are unreachable here), and IndexedDB's date round-trip
(`new Date(profile.createdAt)`) is the identity on the underlying
`getTime()` value. -/

/-- The `error` payload of a failed `RepositoryResult`. -/
structure RepoError where
  message : String
  code : String
  deriving DecidableEq, Repr

/-- `RepositoryResult<T>`: tagged success carrying data, or failure. -/
inductive RepoResult (α : Type) where
  | ok (data : α)
  | err (e : RepoError)
  deriving DecidableEq, Repr

/-- The sorted profile list produced by `getAll()`: all stored profiles,
most recently updated first, timestamps rehydrated. -/
def profileGetAllList (store : List StreamProfile) : List StreamProfile :=
  sortProfiles store .updatedAt .desc

/-- `ProfileRepository.getAll()`. -/
def profileGetAll (store : List StreamProfile) :
    RepoResult (List StreamProfile) :=
  .ok (profileGetAllList store)

/-- `ProfileRepository.getById(id)`. -/
def profileGetById (store : List StreamProfile) (id : String) :
    RepoResult StreamProfile :=
  if id = "" then
    .err { message := "Profile ID is required", code := "VALIDATION_ERROR" }
  else
    match store.find? (fun p => p.id = id) with
    | none => .err { message := "Profile not found", code := "PROFILE_NOT_FOUND" }
    | some p => .ok p

/-- `ProfileRepository.create(profileData)`: validate, reject duplicate
normalized names, then persist via `add` (which fails with `DUPLICATE_ID`
when the generated key already exists). -/
def profileCreate (genId : String) (now : Int) (input : CreateProfileInput)
    (store : List StreamProfile) :
    RepoResult StreamProfile × List StreamProfile :=
  let validation := validateProfile input
  if !validation.isValid then
    (.err { message := String.intercalate ", " (validation.errors.map (·.message)),
            code := "VALIDATION_ERROR" }, store)
  else
    match (profileGetAllList store).find?
        (fun p => normalizeName p.name = normalizeName input.name) with
    | some _ =>
      (.err { message := "A profile with this name already exists",
              code := "DUPLICATE_NAME" }, store)
    | none =>
      let newProfile := createProfile genId now input
      if store.any (fun p => p.id = newProfile.id) then
        (.err { message := "A profile with this ID already exists",
                code := "DUPLICATE_ID" }, store)
      else
        (.ok newProfile, store ++ [newProfile])

/-- The merged input `update` validates and checks (`updates.field ??
existing.field`). -/
def mergedUpdateInput (existing : StreamProfile) (updates : UpdateProfileInput) :
    CreateProfileInput :=
  { name := updates.name.getD existing.name
    description := match updates.description with
                   | some d => some d
                   | none => existing.description
    category := updates.category.getD existing.category
    title := updates.title.getD existing.title
    tags := updates.tags.getD existing.tags }

/-- `ProfileRepository.update(id, updates)`: read, validate the merge,
re-check name uniqueness excluding self when the name actually changes,
then upsert. -/
def profileUpdate (now : Int) (id : String) (updates : UpdateProfileInput)
    (store : List StreamProfile) :
    RepoResult StreamProfile × List StreamProfile :=
  match profileGetById store id with
  | .err e => (.err e, store)
  | .ok existing =>
    let validation := validateProfile (mergedUpdateInput existing updates)
    if !validation.isValid then
      (.err { message := String.intercalate ", " (validation.errors.map (·.message)),
              code := "VALIDATION_ERROR" }, store)
    else
      let duplicate :=
        match updates.name with
        | some n =>
          if n ≠ "" && n ≠ existing.name then
            ((profileGetAllList store).find?
              (fun (p : StreamProfile) =>
                decide (p.id ≠ id) && decide (normalizeName p.name = normalizeName n))).isSome
          else false
        | none => false
      if duplicate then
        (.err { message := "A profile with this name already exists",
                code := "DUPLICATE_NAME" }, store)
      else
        let updatedProfile := updateProfile existing updates now
        (.ok updatedProfile,
         store.map (fun (p : StreamProfile) => if p.id = id then updatedProfile else p))

/-- `ProfileRepository.delete(id)`: verify existence, then hard-delete. -/
def profileDelete (id : String) (store : List StreamProfile) :
    RepoResult Unit × List StreamProfile :=
  match profileGetById store id with
  | .err e => (.err e, store)
  | .ok _ => (.ok (), store.filter (fun p => p.id ≠ id))

/-- `ProfileRepository.search(query)`: `getAll()` then the domain search. -/
def profileSearch (store : List StreamProfile) (query : String) :
    RepoResult (List StreamProfile) :=
  match profileGetAll store with
  | .err e => .err e
  | .ok all => .ok (searchProfiles all query)

/-! ## Category repository (`src/repositories/CategoryRepository.ts`) -/

/-- A cached category record in the `categories` store. -/
structure CachedCategory where
  id : String
  name : String
  boxArtUrl : Option String := none
  cachedAt : Int
  lastFetched : Int
  deriving DecidableEq, Repr

/-- A game record returned by the Twitch search endpoint. -/
structure TwitchGame where
  id : String
  name : String
  box_art_url : Option String := none
  deriving DecidableEq, Repr

/-- Outcome of the live API search the category repository delegates to:
the awaited call either threw, or returned a result object. -/
inductive ApiSearchOutcome where
  | throws
  | result (r : RepoResult (List TwitchGame))
  deriving DecidableEq, Repr

/-- `CategoryRepository.getAll()` data: cached records stripped of cache
metadata. -/
def categoryGetAllList (cache : List CachedCategory) : List StreamCategory :=
  cache.map fun c => { id := c.id, name := c.name, boxArtUrl := c.boxArtUrl }

/-- `CategoryRepository.searchCached(query, limit)` data: case-insensitive
substring filter, sliced when a positive limit is given. -/
def searchCachedList (query : String) (limit : Option Nat)
    (cache : List CachedCategory) : List StreamCategory :=
  let filtered := (categoryGetAllList cache).filter
    (fun c => jsIncludes (jsToLower c.name) (jsToLower query))
  match limit with
  | some l => if l > 0 then filtered.take l else filtered
  | none => filtered

/-- `CategoryRepository.getDefaultCategories()`: the static fallback list. -/
def getDefaultCategories : List StreamCategory :=
  [{ id := "509658", name := "Just Chatting" },
   { id := "26936", name := "Music" },
   { id := "509660", name := "Art" },
   { id := "509670", name := "Science & Technology" },
   { id := "509659", name := "ASMR" },
   { id := "488191", name := "Podcast" },
   { id := "417752", name := "Talk Shows & Podcasts" },
   { id := "509663", name := "Special Events" },
   { id := "21548", name := "World of Warcraft" },
   { id := "32982", name := "Grand Theft Auto V" },
   { id := "511224", name := "Apex Legends" },
   { id := "33214", name := "Fortnite" }]

/-- The default-list fallback branch of `search`: filter the static list by
the query, slicing when a positive limit is given. -/
def defaultsFiltered (query : String) (limit : Option Nat) :
    List StreamCategory :=
  let filtered := getDefaultCategories.filter
    (fun c => jsIncludes (jsToLower c.name) (jsToLower query))
  match limit with
  | some l => if l > 0 then filtered.take l else filtered
  | none => filtered

/-- `CategoryRepository.search(query, limit)`: cache first; when the cache
yields no match, the live API; when that throws, fails, or yields nothing,
the filtered built-in default list. -/
def categorySearch (query : String) (limit : Option Nat)
    (cache : List CachedCategory) (api : ApiSearchOutcome) :
    RepoResult (List StreamCategory) :=
  let cachedData := searchCachedList query limit cache
  if cachedData.length > 0 then .ok cachedData
  else
    match api with
    | .throws => .ok (defaultsFiltered query limit)
    | .result (.ok games) =>
      if games.length > 0 then
        .ok (games.map fun g => { id := g.id, name := g.name, boxArtUrl := g.box_art_url })
      else .ok (defaultsFiltered query limit)
    | .result (.err _) => .ok (defaultsFiltered query limit)

/-! ## OAuth client (`src/lib/auth/twitchAuth.ts`)

The `auth` object store holds at most one token (key `"token"`) and one
transient handshake record (key `"oauth_state"`). -/

/-- `StoredAuthToken`. -/
structure StoredAuthToken where
  access_token : String
  token_type : String
  expires_in : Int
  scope : List String
  obtainedAt : Int
  expiresAt : Int
  userId : String
  deriving DecidableEq, Repr

/-- `OAuthState`: the transient CSRF handshake record. -/
structure OAuthState where
  state : String
  redirectUri : String
  createdAt : Int
  deriving DecidableEq, Repr

/-- The `auth` store. -/
structure AuthStore where
  token : Option StoredAuthToken
  oauthState : Option OAuthState
  deriving DecidableEq, Repr

/-- `TWITCH_CONFIG.REQUIRED_SCOPES`. -/
def TWITCH_REQUIRED_SCOPES : List String := ["channel:manage:broadcast"]

/-- The 5-minute validity buffer applied by `isTokenValid`. -/
def TOKEN_VALIDITY_BUFFER : Int := 5 * 60 * 1000

/-- `TwitchAuth.isTokenValid(token)`: valid iff `now` is strictly before
`expiresAt` minus the buffer. -/
def isTokenValid (now : Int) (token : StoredAuthToken) : Bool :=
  now < token.expiresAt - TOKEN_VALIDITY_BUFFER

/-- `TwitchAuth.isAuthenticated()`: a token is stored and passes the
validity check; no network call. -/
def isAuthenticated (now : Int) (s : AuthStore) : Bool :=
  match s.token with
  | none => false
  | some t => isTokenValid now t

/-- `TwitchAuth.getValidToken()`: return the stored token when still valid;
otherwise clear it and return nothing (implicit grant: no refresh). -/
def getValidToken (now : Int) (s : AuthStore) :
    Option StoredAuthToken × AuthStore :=
  match s.token with
  | none => (none, s)
  | some t =>
    if isTokenValid now t then (some t, s)
    else (none, { s with token := none })

/-- The parameters `handleAuthCallback` reads from the callback URL's
fragment; `none` means the parameter is absent. -/
structure CallbackParams where
  access_token : Option String := none
  token_type : Option String := none
  expires_in : Option Nat := none
  scope : Option String := none
  state : Option String := none
  error : Option String := none
  error_description : Option String := none
  deriving DecidableEq, Repr

/-- JS truthiness of a nullable string: present and non-empty. -/
def jsTruthy (o : Option String) : Bool :=
  match o with
  | none => false
  | some s => s ≠ ""

/-- `TwitchAuth.handleAuthCallback(url)`: reject on an error parameter, on
missing token/state, on a state mismatch (CSRF), or when the "who am I"
user lookup fails (`userFetch` is its outcome: the resolved user id, or
`none` on a failed request or empty user list); on success build and store
the token.  Every exit deletes the transient `OAuthState`.  Returns the
success flag and the resulting auth store. -/
def handleAuthCallback (now : Int) (p : CallbackParams)
    (userFetch : Option String) (s : AuthStore) : Bool × AuthStore :=
  let cleared : AuthStore := { s with oauthState := none }
  if jsTruthy p.error then (false, cleared)
  else if !jsTruthy p.access_token || !jsTruthy p.state then (false, cleared)
  else
    match s.oauthState with
    | none => (false, cleared)
    | some os =>
      if some os.state ≠ p.state then (false, cleared)
      else
        match userFetch with
        | none => (false, cleared)
        | some userId =>
          let expiresIn : Int := match p.expires_in with
                                 | some n => (n : Int)
                                 | none => 3600
          let token : StoredAuthToken :=
            { access_token := p.access_token.getD ""
              token_type := if jsTruthy p.token_type then p.token_type.getD "" else "bearer"
              expires_in := expiresIn
              scope := match p.scope with
                       | some sc => if sc ≠ "" then sc.splitOn " " else TWITCH_REQUIRED_SCOPES
                       | none => TWITCH_REQUIRED_SCOPES
              obtainedAt := now
              expiresAt := now + expiresIn * 1000
              userId := userId }
          (true, { token := some token, oauthState := none })

/-! ## Helper lemmas -/

/-- The error code of a repository result, when it failed. -/
def resultCode {α : Type} (r : RepoResult α) : Option String :=
  match r with
  | .ok _ => none
  | .err e => some e.code

theorem mem_profileGetAllList {a : StreamProfile} {store : List StreamProfile} :
    a ∈ profileGetAllList store ↔ a ∈ store := by
  unfold profileGetAllList sortProfiles
  exact (List.mergeSort_perm store _).mem_iff

theorem profileGetById_ok {store : List StreamProfile} {id : String}
    {e : StreamProfile} (h : profileGetById store id = .ok e) :
    e ∈ store ∧ e.id = id := by
  unfold profileGetById at h
  by_cases hid : id = ""
  · simp [hid] at h
  · rw [if_neg hid] at h
    cases hfind : store.find? (fun p => p.id = id) with
    | none => rw [hfind] at h; cases h
    | some q =>
      rw [hfind] at h
      cases h
      exact ⟨List.mem_of_find?_eq_some hfind, by simpa using List.find?_some hfind⟩

theorem eq_of_pairwise_ids {l : List StreamProfile}
    (h : l.Pairwise (fun p q => p.id ≠ q.id)) {p q : StreamProfile}
    (hp : p ∈ l) (hq : q ∈ l) (hid : p.id = q.id) : p = q := by
  induction l with
  | nil => cases hp
  | cons a t ih =>
    have ha := (List.pairwise_cons.mp h).1
    have ht := (List.pairwise_cons.mp h).2
    cases hp with
    | head =>
      cases hq with
      | head => rfl
      | tail _ hq' => exact absurd hid (ha q hq')
    | tail _ hp' =>
      cases hq with
      | head => exact absurd hid.symm (ha p hp')
      | tail _ hq' => exact ih ht hp' hq'

theorem validateProfile_isValid_name {input : CreateProfileInput}
    (hval : (validateProfile input).isValid = true) :
    (input.name = "" || (jsTrim input.name).length = 0) = false := by
  by_cases hcond : (input.name = "" || (jsTrim input.name).length = 0) = true
  · exfalso
    simp only [validateProfile, hcond, if_true] at hval
    simp at hval
  · simpa using hcond

theorem jsTrim_idem (s : String) : jsTrim (jsTrim s) = jsTrim s := by
  unfold jsTrim
  exact congrArg String.mk (trimChars_idem s.data)

/-! ## Claim theorems -/

/-- Claim C1: the OAuth client treats a stored token as valid exactly when `now`
is strictly before `expiresAt` minus the 5-minute buffer: `getValidToken`
hands the token out iff that bound holds (and so never hands out a token
inside the buffer), `isAuthenticated` agrees, a token expiring in 4 minutes
is rejected, and one expiring in 6 minutes is returned. -/
theorem token_validity_boundary (now : Int) (s : AuthStore)
    (t : StoredAuthToken) (h : s.token = some t) :
    ((getValidToken now s).1 = some t ↔ now < t.expiresAt - TOKEN_VALIDITY_BUFFER)
    ∧ (isAuthenticated now s = true ↔ now < t.expiresAt - TOKEN_VALIDITY_BUFFER)
    ∧ (t.expiresAt = now + 4 * 60 * 1000 →
        (getValidToken now s).1 = none ∧ isAuthenticated now s = false)
    ∧ (t.expiresAt = now + 6 * 60 * 1000 → (getValidToken now s).1 = some t) := by
  by_cases hv : now < t.expiresAt - TOKEN_VALIDITY_BUFFER
  · refine ⟨?_, ?_, ?_, ?_⟩
    · simp [getValidToken, h, isTokenValid, hv]
    · simp [isAuthenticated, h, isTokenValid, hv]
    · intro he
      exfalso
      rw [he] at hv
      simp only [TOKEN_VALIDITY_BUFFER] at hv
      omega
    · intro _
      simp [getValidToken, h, isTokenValid, hv]
  · refine ⟨?_, ?_, ?_, ?_⟩
    · simp [getValidToken, h, isTokenValid, hv]
    · simp [isAuthenticated, h, isTokenValid, hv]
    · intro _
      exact ⟨by simp [getValidToken, h, isTokenValid, hv],
             by simp [isAuthenticated, h, isTokenValid, hv]⟩
    · intro he
      exfalso
      rw [he] at hv
      simp only [TOKEN_VALIDITY_BUFFER] at hv
      omega

/-- A concrete token expiring 10 minutes after `now = 0`. -/
def sampleToken : StoredAuthToken :=
  { access_token := "abc123", token_type := "bearer", expires_in := 3600,
    scope := ["channel:manage:broadcast"], obtainedAt := 0,
    expiresAt := 600000, userId := "44322889" }

/-- The auth store holding `sampleToken`. -/
def sampleAuthStore : AuthStore :=
  { token := some sampleToken, oauthState := none }

theorem token_validity_boundary_witness :
    ((getValidToken 0 sampleAuthStore).1 = some sampleToken ↔
        (0 : Int) < sampleToken.expiresAt - TOKEN_VALIDITY_BUFFER)
    ∧ (isAuthenticated 0 sampleAuthStore = true ↔
        (0 : Int) < sampleToken.expiresAt - TOKEN_VALIDITY_BUFFER)
    ∧ (sampleToken.expiresAt = 0 + 4 * 60 * 1000 →
        (getValidToken 0 sampleAuthStore).1 = none
          ∧ isAuthenticated 0 sampleAuthStore = false)
    ∧ (sampleToken.expiresAt = 0 + 6 * 60 * 1000 →
        (getValidToken 0 sampleAuthStore).1 = some sampleToken) :=
  token_validity_boundary 0 sampleAuthStore sampleToken rfl

/-- Claim C2: when the callback's `state` parameter does not match the stored
`OAuthState` (or no such record exists), `handleAuthCallback` reports
failure, leaves the stored token untouched, and deletes the transient
handshake record. -/
theorem csrf_state_mismatch_rejected (now : Int) (p : CallbackParams)
    (userFetch : Option String) (s : AuthStore)
    (h : ∀ os, s.oauthState = some os → p.state ≠ some os.state) :
    (handleAuthCallback now p userFetch s).1 = false
    ∧ (handleAuthCallback now p userFetch s).2.token = s.token
    ∧ (handleAuthCallback now p userFetch s).2.oauthState = none := by
  by_cases h1 : jsTruthy p.error = true
  · simp [handleAuthCallback, h1]
  · by_cases h2 : (!jsTruthy p.access_token || !jsTruthy p.state) = true
    · simp [handleAuthCallback, h1, h2]
    · cases hos : s.oauthState with
      | none => simp [handleAuthCallback, h1, h2, hos]
      | some os =>
        have hne : some os.state ≠ p.state := fun heq => h os hos heq.symm
        simp [handleAuthCallback, h1, h2, hos, hne]

/-- A callback carrying a state value that matches no stored handshake. -/
def mismatchedCallback : CallbackParams :=
  { access_token := some "tok", token_type := some "bearer",
    expires_in := some 3600, scope := some "channel:manage:broadcast",
    state := some "attacker-state" }

/-- An auth store holding a pending handshake with a different state. -/
def pendingAuthStore : AuthStore :=
  { token := none,
    oauthState := some { state := "good-state",
                         redirectUri := "http://localhost:5173/auth/callback",
                         createdAt := 0 } }

theorem csrf_state_mismatch_rejected_witness :
    (handleAuthCallback 0 mismatchedCallback (some "44322889") pendingAuthStore).1 = false
    ∧ (handleAuthCallback 0 mismatchedCallback (some "44322889") pendingAuthStore).2.token
        = pendingAuthStore.token
    ∧ (handleAuthCallback 0 mismatchedCallback (some "44322889") pendingAuthStore).2.oauthState
        = none :=
  csrf_state_mismatch_rejected 0 mismatchedCallback (some "44322889") pendingAuthStore
    (by intro os hos
        injection hos with h'
        subst h'
        decide)

/-- Claim C5: with the wall clock fixed at 2025-07-09T00:00Z (a Wednesday),
`processTitle` renders `{DAY}` as the full English weekday name and
`{YYYY-MM-DD}` as the ISO calendar date, both computed from `now`. -/
theorem processTitle_fixed_wednesday :
    (processTitle 1752019200000 "{DAY} Stream - {YYYY-MM-DD}").processed
        = "Wednesday Stream - 2025-07-09"
    ∧ isoDateString 1752019200000 = "2025-07-09"
    ∧ weekdayName 1752019200000 = "Wednesday"
    ∧ (processTitle 1752019200000 "{DAY} Stream - {YYYY-MM-DD}").replacements
        = [("{YYYY-MM-DD}", "2025-07-09"), ("{DAY}", "Wednesday")] := by
  decide

/-- Claim C6: unrecognized placeholders survive verbatim for every wall-clock
value: `{INVALID}` and the lowercase `{day}` are not replaced (matching is
case-sensitive and exact), so the template comes back character for
character. -/
theorem processTitle_unknown_placeholders (now : Int) :
    (processTitle now "Stream {INVALID} {day}").processed
      = "Stream {INVALID} {day}" := by
  have h1 : jsIncludes "Stream {INVALID} {day}" TITLE_TEMPLATES.DATE = false := by
    decide
  have h2 : jsIncludes "Stream {INVALID} {day}" TITLE_TEMPLATES.DAY = false := by
    decide
  simp [processTitle, h1, h2]

/-- The C7 probe input: empty name, empty category, empty title, 12 tags. -/
def overloadedInput : CreateProfileInput :=
  { name := "", description := none, category := { id := "", name := "" },
    title := "",
    tags := ["t1", "t2", "t3", "t4", "t5", "t6", "t7", "t8", "t9", "t10",
             "t11", "t12"] }

/-- Claim C7: `validateProfile` collects every violation instead of stopping at
the first: the input with an empty name, empty category, empty title and 12
tags fails with one error per broken rule — four distinct violations, each
carrying its field, message and code. -/
theorem validateProfile_collects_all_violations :
    (validateProfile overloadedInput).isValid = false
    ∧ 4 ≤ (validateProfile overloadedInput).errors.length
    ∧ (validateProfile overloadedInput).errors.map (fun e => e.code)
        = ["NAME_REQUIRED", "TITLE_REQUIRED", "CATEGORY_REQUIRED", "TAGS_TOO_MANY"]
    ∧ ((validateProfile overloadedInput).errors.map (fun e => e.code)).Nodup
    ∧ (validateProfile overloadedInput).errors.map (fun e => e.field)
        = ["name", "title", "category", "tags"] := by
  decide

/-- Claim C9: a freshly created profile has its name, title and description
trimmed, and its tags are the input tags trimmed with the ones empty after
trimming dropped — so no tag of a new profile is empty or whitespace-only
(each is non-empty and fixed by trimming). -/
theorem createProfile_trims (genId : String) (now : Int)
    (input : CreateProfileInput) :
    (createProfile genId now input).name = jsTrim input.name
    ∧ (createProfile genId now input).title = jsTrim input.title
    ∧ (createProfile genId now input).description = input.description.map jsTrim
    ∧ (createProfile genId now input).tags
        = (input.tags.map jsTrim).filter (fun t => t.length > 0)
    ∧ ∀ t ∈ (createProfile genId now input).tags, t ≠ "" ∧ jsTrim t = t := by
  refine ⟨rfl, rfl, rfl, rfl, ?_⟩
  intro t ht
  have ht' := List.mem_filter.mp ht
  obtain ⟨u, _, hu⟩ := List.mem_map.mp ht'.1
  have hlen : t.length > 0 := by simpa using ht'.2
  constructor
  · intro hnil
    rw [hnil] at hlen
    simp at hlen
  · rw [← hu]
    exact jsTrim_idem u

/-- Claim C10: a query that is empty or whitespace-only returns the full profile
list unchanged, both from the domain search and from
`ProfileRepository.search` (which then coincides with `getAll`). -/
theorem whitespace_query_returns_all (store : List StreamProfile)
    (query : String) (h : jsTrim query = "") :
    searchProfiles store query = store
    ∧ profileSearch store query = profileGetAll store := by
  constructor
  · simp [searchProfiles, h]
  · simp [profileSearch, profileGetAll, searchProfiles, h]

/-- A concrete stored profile. -/
def sampleProfile : StreamProfile :=
  { id := "11111111-1111-4111-9111-111111111111", name := "Morning Pages",
    description := some "journaling session",
    category := { id := "509658", name := "Just Chatting" },
    title := "Morning Pages - {DAY} {YYYY-MM-DD}", tags := ["journaling"],
    createdAt := 1752019200000, updatedAt := 1752019200000 }

theorem whitespace_query_returns_all_witness :
    searchProfiles [sampleProfile] " \t " = [sampleProfile]
    ∧ profileSearch [sampleProfile] " \t " = profileGetAll [sampleProfile] :=
  whitespace_query_returns_all [sampleProfile] " \t " (by decide)

/-- Claim C8: `getAll()` always succeeds, returning exactly the stored profiles
(timestamps rehydrated — the identity on the underlying epoch values in
this model), ordered most recently updated first. -/
theorem getAll_sorted_most_recent_first (store : List StreamProfile) :
    ∃ l, profileGetAll store = .ok l ∧ l.Perm store
      ∧ l.Pairwise (fun a b => b.updatedAt ≤ a.updatedAt) := by
  refine ⟨profileGetAllList store, rfl, ?_, ?_⟩
  · exact List.mergeSort_perm store _
  · have hs := @List.sorted_mergeSort StreamProfile
      (fun a b : StreamProfile =>
        decide ((match SortDirection.desc with
                 | .desc => -(profileComparison .updatedAt a b)
                 | .asc => profileComparison .updatedAt a b) ≤ 0))
      (fun a b c hab hbc => by
        simp only [profileComparison, decide_eq_true_eq] at hab hbc ⊢
        omega)
      (fun a b => by
        simp only [profileComparison, Bool.or_eq_true, decide_eq_true_eq]
        omega)
      store
    have heq : profileGetAllList store
        = store.mergeSort (fun a b : StreamProfile =>
            decide ((match SortDirection.desc with
                     | .desc => -(profileComparison .updatedAt a b)
                     | .asc => profileComparison .updatedAt a b) ≤ 0)) := rfl
    rw [heq]
    exact hs.imp (fun h => by
      simp only [profileComparison, decide_eq_true_eq] at h
      omega)

/-- Claim C4: the category search's three-tier fallback never surfaces an error —
every call succeeds — and with an empty cache and a failing live API (the
call throws or returns a failure), `search("chat")` still returns the
built-in "Just Chatting" default entry. -/
theorem category_search_fallback :
    (∀ query limit cache api, ∃ data,
        categorySearch query limit cache api = .ok data)
    ∧ (∀ api limit,
        (api = .throws ∨ ∃ e, api = .result (.err e)) →
        categorySearch "chat" limit [] api
          = .ok [{ id := "509658", name := "Just Chatting" }]) := by
  constructor
  · intro query limit cache api
    by_cases h : (searchCachedList query limit cache).length > 0
    · exact ⟨searchCachedList query limit cache, by simp [categorySearch, h]⟩
    · cases api with
      | throws => exact ⟨defaultsFiltered query limit, by simp [categorySearch, h]⟩
      | result r =>
        cases r with
        | ok games =>
          by_cases hg : games.length > 0
          · exact ⟨games.map (fun g =>
              { id := g.id, name := g.name, boxArtUrl := g.box_art_url }),
              by simp [categorySearch, h, hg]⟩
          · exact ⟨defaultsFiltered query limit, by simp [categorySearch, h, hg]⟩
        | err e => exact ⟨defaultsFiltered query limit, by simp [categorySearch, h]⟩
  · have hcache : ∀ limit, searchCachedList "chat" limit ([] : List CachedCategory) = [] := by
      intro limit
      cases limit with
      | none => rfl
      | some l =>
        simp only [searchCachedList, categoryGetAllList, List.map_nil, List.filter_nil]
        by_cases hl : l > 0 <;> simp [hl]
    have hdef : ∀ limit, defaultsFiltered "chat" limit
        = [{ id := "509658", name := "Just Chatting" }] := by
      intro limit
      have hfil : getDefaultCategories.filter
          (fun c => jsIncludes (jsToLower c.name) (jsToLower "chat"))
          = [{ id := "509658", name := "Just Chatting" }] := by decide
      cases limit with
      | none => simp [defaultsFiltered, hfil]
      | some l =>
        by_cases hl : l > 0
        · have htake : ([{ id := "509658", name := "Just Chatting" }] :
              List StreamCategory).take l
              = [{ id := "509658", name := "Just Chatting" }] :=
            List.take_of_length_le (by simp; omega)
          simp [defaultsFiltered, hfil, hl, htake]
        · simp [defaultsFiltered, hfil, hl]
    rintro api limit (rfl | ⟨e, rfl⟩)
    · simp [categorySearch, hcache limit, hdef limit]
    · simp [categorySearch, hcache limit, hdef limit]

theorem category_search_fallback_witness :
    categorySearch "chat" none [] .throws
      = .ok [{ id := "509658", name := "Just Chatting" }] :=
  category_search_fallback.2 .throws none (Or.inl rfl)

/-! ## Name-uniqueness invariant (claim C3) -/

/-- No two stored profiles share a normalized name. -/
def NamesUnique (store : List StreamProfile) : Prop :=
  store.Pairwise (fun p q => normalizeName p.name ≠ normalizeName q.name)

/-- Stored profile ids are pairwise distinct (the object store is keyed by
`id`). -/
def IdsUnique (store : List StreamProfile) : Prop :=
  store.Pairwise (fun p q => p.id ≠ q.id)

theorem profileCreate_duplicate_name (genId : String) (now : Int)
    (input : CreateProfileInput) (store : List StreamProfile)
    (hval : (validateProfile input).isValid = true)
    (hdup : ∃ p ∈ store, normalizeName p.name = normalizeName input.name) :
    profileCreate genId now input store
      = (.err { message := "A profile with this name already exists",
                code := "DUPLICATE_NAME" }, store) := by
  obtain ⟨p, hp, heq⟩ := hdup
  have hfind : ((profileGetAllList store).find?
      (fun p => normalizeName p.name = normalizeName input.name)).isSome = true := by
    rw [List.find?_isSome]
    exact ⟨p, mem_profileGetAllList.mpr hp, by simpa using heq⟩
  cases hf : (profileGetAllList store).find?
      (fun p => normalizeName p.name = normalizeName input.name) with
  | none => rw [hf] at hfind; simp at hfind
  | some q => simp [profileCreate, hval, hf]

theorem profileCreate_preserves_uniqueness (genId : String) (now : Int)
    (input : CreateProfileInput) (store : List StreamProfile)
    (hids : IdsUnique store) (hnames : NamesUnique store) :
    IdsUnique (profileCreate genId now input store).2
    ∧ NamesUnique (profileCreate genId now input store).2 := by
  by_cases hval : (validateProfile input).isValid = true
  · cases hf : (profileGetAllList store).find?
        (fun p => normalizeName p.name = normalizeName input.name) with
    | some q =>
      simp only [profileCreate, hval, Bool.not_true, Bool.false_eq_true,
        if_false, hf]
      exact ⟨hids, hnames⟩
    | none =>
      by_cases hany : store.any
          (fun p => p.id = (createProfile genId now input).id) = true
      · simp only [profileCreate, hval, Bool.not_true, Bool.false_eq_true,
          if_false, hf, hany, if_true]
        exact ⟨hids, hnames⟩
      · simp only [profileCreate, hval, Bool.not_true, Bool.false_eq_true,
          if_false, hf, Bool.not_eq_true] at hany ⊢
        rw [hany]
        simp only [Bool.false_eq_true, if_false]
        constructor
        · rw [IdsUnique, List.pairwise_append]
          refine ⟨hids, List.pairwise_singleton _ _, ?_⟩
          intro a ha b hb
          have hb' : b = createProfile genId now input := by simpa using hb
          subst hb'
          have := List.any_eq_false.mp hany a ha
          simpa using this
        · rw [NamesUnique, List.pairwise_append]
          refine ⟨hnames, List.pairwise_singleton _ _, ?_⟩
          intro a ha b hb
          have hb' : b = createProfile genId now input := by simpa using hb
          subst hb'
          have hnone := List.find?_eq_none.mp hf a (mem_profileGetAllList.mpr ha)
          have : normalizeName a.name ≠ normalizeName input.name := by
            simpa using hnone
          show normalizeName a.name ≠ normalizeName (jsTrim input.name)
          rwa [normalizeName_jsTrim]
  · have hval' : (validateProfile input).isValid = false := by
      cases h : (validateProfile input).isValid
      · rfl
      · exact absurd h hval
    simp only [profileCreate, hval', Bool.not_false, if_true]
    exact ⟨hids, hnames⟩

theorem mapReplace_preserves_uniqueness (store : List StreamProfile)
    (id : String) (updated : StreamProfile)
    (hids : IdsUnique store) (hnames : NamesUnique store)
    (hidEq : updated.id = id)
    (hcross : ∀ q ∈ store, q.id ≠ id →
        normalizeName q.name ≠ normalizeName updated.name) :
    IdsUnique (store.map (fun p => if p.id = id then updated else p))
    ∧ NamesUnique (store.map (fun p => if p.id = id then updated else p)) := by
  constructor
  · rw [IdsUnique, List.pairwise_map]
    refine hids.imp_of_mem ?_
    intro a b _ _ hab
    by_cases h1 : a.id = id <;> by_cases h2 : b.id = id
    · exact absurd (h1.trans h2.symm) hab
    · simp only [if_pos h1, if_neg h2]
      rw [hidEq, ← h1]
      exact hab
    · simp only [if_neg h1, if_pos h2]
      rw [hidEq, ← h2]
      exact hab
    · simp only [if_neg h1, if_neg h2]
      exact hab
  · rw [NamesUnique, List.pairwise_map]
    refine (hids.and hnames).imp_of_mem ?_
    intro a b ha hb hab
    by_cases h1 : a.id = id <;> by_cases h2 : b.id = id
    · exact absurd (h1.trans h2.symm) hab.1
    · simp only [if_pos h1, if_neg h2]
      exact fun hh => hcross b hb h2 hh.symm
    · simp only [if_neg h1, if_pos h2]
      exact hcross a ha h1
    · simp only [if_neg h1, if_neg h2]
      exact hab.2

theorem profileUpdate_duplicate_name (now : Int) (id : String)
    (updates : UpdateProfileInput) (store : List StreamProfile)
    (existing : StreamProfile) (n : String)
    (hbyid : profileGetById store id = .ok existing)
    (hname : updates.name = some n) (hne : n ≠ "") (hnex : n ≠ existing.name)
    (hval : (validateProfile (mergedUpdateInput existing updates)).isValid = true)
    (hdup : ∃ p ∈ store, p.id ≠ id ∧ normalizeName p.name = normalizeName n) :
    profileUpdate now id updates store
      = (.err { message := "A profile with this name already exists",
                code := "DUPLICATE_NAME" }, store) := by
  obtain ⟨p, hp, hpid, hpn⟩ := hdup
  have hfind : ((profileGetAllList store).find?
      (fun (p : StreamProfile) =>
        decide (p.id ≠ id) && decide (normalizeName p.name = normalizeName n))).isSome
      = true := by
    rw [List.find?_isSome]
    exact ⟨p, mem_profileGetAllList.mpr hp, by simp [hpid, hpn]⟩
  have hguard : (n ≠ "" && n ≠ existing.name) = true := by
    simp [hne, hnex]
  simp only [profileUpdate, hbyid, hval, Bool.not_true, Bool.false_eq_true,
    if_false, hname, hguard, if_true, hfind]

theorem profileUpdate_preserves_uniqueness (now : Int) (id : String)
    (updates : UpdateProfileInput) (store : List StreamProfile)
    (hids : IdsUnique store) (hnames : NamesUnique store) :
    IdsUnique (profileUpdate now id updates store).2
    ∧ NamesUnique (profileUpdate now id updates store).2 := by
  cases hbyid : profileGetById store id with
  | err e =>
    simp only [profileUpdate, hbyid]
    exact ⟨hids, hnames⟩
  | ok existing =>
    obtain ⟨hmem, hid⟩ := profileGetById_ok hbyid
    by_cases hval : (validateProfile (mergedUpdateInput existing updates)).isValid = true
    · have hcross_keep : ∀ q ∈ store, q.id ≠ id →
          normalizeName q.name ≠ normalizeName existing.name := by
        intro q hq hqid
        have hqne : q ≠ existing := fun h => hqid (h ▸ hid)
        have hsym : Symmetric (fun p q : StreamProfile =>
            normalizeName p.name ≠ normalizeName q.name) :=
          fun _ _ h heq => h heq.symm
        exact List.Pairwise.forall hsym hnames hq hmem hqne
      cases hname : updates.name with
      | none =>
        simp only [profileUpdate, hbyid, hval, Bool.not_true, Bool.false_eq_true,
          if_false, hname]
        exact mapReplace_preserves_uniqueness store id
          (updateProfile existing updates now) hids hnames
          (by rw [updateProfile]; exact hid)
          (by
            intro q hq hqid
            have : (updateProfile existing updates now).name = existing.name := by
              simp [updateProfile, hname]
            rw [this]
            exact hcross_keep q hq hqid)
      | some n =>
        by_cases hguard : (n ≠ "" && n ≠ existing.name) = true
        · by_cases hdup : ((profileGetAllList store).find?
              (fun (p : StreamProfile) =>
                decide (p.id ≠ id) && decide (normalizeName p.name = normalizeName n))).isSome
              = true
          · simp only [profileUpdate, hbyid, hval, Bool.not_true, Bool.false_eq_true,
              if_false, hname, hguard, if_true, hdup]
            exact ⟨hids, hnames⟩
          · have hfnone : (profileGetAllList store).find?
                (fun (p : StreamProfile) =>
                  decide (p.id ≠ id) && decide (normalizeName p.name = normalizeName n))
                = none := by
              cases hf : (profileGetAllList store).find?
                  (fun (p : StreamProfile) =>
                    decide (p.id ≠ id) && decide (normalizeName p.name = normalizeName n)) with
              | none => rfl
              | some q => rw [hf] at hdup; simp at hdup
            simp only [profileUpdate, hbyid, hval, Bool.not_true, Bool.false_eq_true,
              if_false, hname, hguard, if_true, hfnone, Option.isSome_none]
            exact mapReplace_preserves_uniqueness store id
              (updateProfile existing updates now) hids hnames
              (by rw [updateProfile]; exact hid)
              (by
                intro q hq hqid
                have hqname : (updateProfile existing updates now).name = n := by
                  simp [updateProfile, hname]
                rw [hqname]
                have := List.find?_eq_none.mp hfnone q (mem_profileGetAllList.mpr hq)
                simp only [Bool.and_eq_true, decide_eq_true_eq, not_and] at this
                exact this hqid)
        · have hn : n = existing.name := by
            have hn' : ¬(n ≠ "" ∧ n ≠ existing.name) := by
              intro ⟨ha, hb⟩
              exact hguard (by simp [ha, hb])
            have hnempty : n ≠ "" := by
              intro hempty
              have := validateProfile_isValid_name hval
              have hmname : (mergedUpdateInput existing updates).name = n := by
                simp [mergedUpdateInput, hname]
              rw [hmname, hempty] at this
              simp [jsTrim, trimChars] at this
            rcases not_and_or.mp hn' with h | h
            · exact absurd hnempty h
            · simpa using h
          simp only [profileUpdate, hbyid, hval, Bool.not_true, Bool.false_eq_true,
            if_false, hname, hguard]
          exact mapReplace_preserves_uniqueness store id
            (updateProfile existing updates now) hids hnames
            (by rw [updateProfile]; exact hid)
            (by
              intro q hq hqid
              have hqname : (updateProfile existing updates now).name = n := by
                simp [updateProfile, hname]
              rw [hqname, hn]
              exact hcross_keep q hq hqid)
    · have hval' : (validateProfile (mergedUpdateInput existing updates)).isValid = false := by
        cases h : (validateProfile (mergedUpdateInput existing updates)).isValid
        · rfl
        · exact absurd h hval
      simp only [profileUpdate, hbyid, hval', Bool.not_false, if_true]
      exact ⟨hids, hnames⟩

theorem profileDelete_preserves_uniqueness (id : String)
    (store : List StreamProfile)
    (hids : IdsUnique store) (hnames : NamesUnique store) :
    IdsUnique (profileDelete id store).2 ∧ NamesUnique (profileDelete id store).2 := by
  cases hbyid : profileGetById store id with
  | err e =>
    simp only [profileDelete, hbyid]
    exact ⟨hids, hnames⟩
  | ok q =>
    simp only [profileDelete, hbyid]
    exact ⟨hids.sublist (List.filter_sublist store),
           hnames.sublist (List.filter_sublist store)⟩

/-- A create input whose name collides with `sampleProfile`'s (up to
normalization) but which also carries 11 tags, breaking the tag-count
rule. -/
def collidingInvalidInput : CreateProfileInput :=
  { name := "MORNING pages", description := none,
    category := { id := "509658", name := "Just Chatting" },
    title := "hello",
    tags := ["t1", "t2", "t3", "t4", "t5", "t6", "t7", "t8", "t9", "t10",
             "t11"] }

/-- Claim C3 counterexample: an input whose normalized name collides with a
stored profile's does not necessarily fail with `DUPLICATE_NAME` — domain
validation runs first, so this colliding input with 11 tags fails with
`VALIDATION_ERROR` instead. -/
theorem duplicate_name_not_always_reported :
    normalizeName collidingInvalidInput.name = normalizeName sampleProfile.name
    ∧ resultCode (profileCreate "22222222-2222-4222-9222-222222222222" 5
        collidingInvalidInput [sampleProfile]).1 = some "VALIDATION_ERROR"
    ∧ resultCode (profileCreate "22222222-2222-4222-9222-222222222222" 5
        collidingInvalidInput [sampleProfile]).1 ≠ some "DUPLICATE_NAME" := by
  decide

/-- Claim C3, amended: provided the input passes domain validation, creating
with a name whose normalization matches a stored profile's fails with
`DUPLICATE_NAME` and leaves the store unchanged; provided the merged record
passes validation, renaming a profile onto a different profile's normalized
name fails with `DUPLICATE_NAME` and changes nothing; and create, update
and delete all preserve the invariant that no two stored profiles (in an
id-keyed store) share a normalized name. -/
theorem profile_name_uniqueness :
    (∀ genId now input store,
      (validateProfile input).isValid = true →
      (∃ p ∈ store, normalizeName p.name = normalizeName input.name) →
      profileCreate genId now input store
        = (.err { message := "A profile with this name already exists",
                  code := "DUPLICATE_NAME" }, store))
    ∧ (∀ now id updates store existing n,
      profileGetById store id = .ok existing →
      updates.name = some n → n ≠ "" → n ≠ existing.name →
      (validateProfile (mergedUpdateInput existing updates)).isValid = true →
      (∃ p ∈ store, p.id ≠ id ∧ normalizeName p.name = normalizeName n) →
      profileUpdate now id updates store
        = (.err { message := "A profile with this name already exists",
                  code := "DUPLICATE_NAME" }, store))
    ∧ (∀ genId now input store, IdsUnique store → NamesUnique store →
        IdsUnique (profileCreate genId now input store).2
        ∧ NamesUnique (profileCreate genId now input store).2)
    ∧ (∀ now id updates store, IdsUnique store → NamesUnique store →
        IdsUnique (profileUpdate now id updates store).2
        ∧ NamesUnique (profileUpdate now id updates store).2)
    ∧ (∀ id store, IdsUnique store → NamesUnique store →
        IdsUnique (profileDelete id store).2
        ∧ NamesUnique (profileDelete id store).2) :=
  ⟨profileCreate_duplicate_name, profileUpdate_duplicate_name,
   profileCreate_preserves_uniqueness, profileUpdate_preserves_uniqueness,
   profileDelete_preserves_uniqueness⟩

/-- A valid create input colliding with `sampleProfile`'s name. -/
def collidingValidInput : CreateProfileInput :=
  { name := "MORNING pages", description := none,
    category := { id := "509658", name := "Just Chatting" },
    title := "hello", tags := ["chill"] }

theorem profile_name_uniqueness_witness :
    profileCreate "22222222-2222-4222-9222-222222222222" 5
        collidingValidInput [sampleProfile]
      = (.err { message := "A profile with this name already exists",
                code := "DUPLICATE_NAME" }, [sampleProfile]) :=
  profile_name_uniqueness.1 "22222222-2222-4222-9222-222222222222" 5
    collidingValidInput [sampleProfile] (by decide)
    ⟨sampleProfile, by simp, by decide⟩

end ScratchMyTwitch
